import Mathlib

/-!
# Verification of the dolt persistence-layer core

Shallow embedding of the two source files under scrutiny:

* `go/chunks/leveldb_store.go` — the LevelDB-backed content-addressed
  chunk store (`internalLevelDBStore`, `LevelDBStore`, its factory);
* `go/libraries/doltcore/mvdata/table_data_loc.go` — the table mutation
  session (`tableEditorWriteCloser` and its three construction modes).

Modelling conventions:

* byte strings are `List Nat`;
* the embedded LevelDB engine is modelled as an error-free association
  map from keys to values (engine errors other than not-found are fatal
  in the source and out of the model);
* run-time panics (`d.Chk` assertion failures, nil-pointer dereference,
  Go's integer division by zero) are made explicit as a `Fault` value
  returned through `Except`;
* concurrency primitives (the root mutex, the write semaphore, atomic
  counter ops) are elided: every operation is modelled as the atomic
  state transformation its body performs, which is the level at which
  the claims speak.
-/

namespace DoltCore

/-- Byte strings, the currency of keys, values and encoded tuples. -/
abbrev Bytes := List Nat

/-- Run-time panics of the Go code, made explicit. `assertionFailed` is a
`d.Chk.True` / `d.Chk.NoError` assertion firing; `nilDeref` is a
dereference of a nil pointer; `divByZero` is Go's integer division by a
zero divisor; `decodeFailed` is the `d.Chk.NoError` around the blob-codec
decode. -/
inductive Fault where
  | assertionFailed
  | nilDeref
  | divByZero
  | decodeFailed
deriving DecidableEq, Repr

/-- Go `int64` division panics when the divisor is zero; the quotient
itself is never inspected by any claim. -/
def goIntDiv (a b : Int) : Except Fault Int :=
  if b = 0 then .error .divByZero else .ok (a / b)

/-- The embedded ordered key-value engine (`*leveldb.DB`), modelled as an
association list from byte-string keys to byte-string values. -/
abbrev DB := List (Bytes × Bytes)

/-- Engine read: value stored at `k`, `none` for `ErrNotFound`. -/
def dbGet : DB → Bytes → Option Bytes
  | [], _ => none
  | (k0, v0) :: rest, k => if k0 = k then some v0 else dbGet rest k

/-- Engine membership probe (`db.Has`). -/
def dbHas (db : DB) (k : Bytes) : Bool :=
  (dbGet db k).isSome

/-- Engine write: overwrite the binding of `k`, or append a fresh one. -/
def dbPut : DB → Bytes → Bytes → DB
  | [], k, v => [(k, v)]
  | (k0, v0) :: rest, k, v =>
    if k0 = k then (k, v) :: rest else (k0, v0) :: dbPut rest k v

theorem dbGet_dbPut_self (db : DB) (k v : Bytes) :
    dbGet (dbPut db k v) k = some v := by
  induction db with
  | nil => simp [dbPut, dbGet]
  | cons kv rest ih =>
    obtain ⟨k0, v0⟩ := kv
    by_cases h : k0 = k
    · simp [dbPut, dbGet, h]
    · simp [dbPut, dbGet, h, ih]

/-- Content hashes of the external `hash` package (`hash.Hash`, a
20-byte digest). The textual codec that `updateRootByKey` writes through
(`current.String()`) and `rootByKey` reads back through (`hash.Parse`)
is external to the repository; its contract — `Parse (h.String()) = h` —
is modelled by collapsing it to the identity on digest bytes. -/
structure Hash where
  digest : Bytes
deriving DecidableEq, Repr

/-- The zero-value `hash.Hash{}` sentinel: all-zero digest. -/
def zeroHash : Hash := ⟨List.replicate 20 0⟩

/-- Modelled from the spec: the textual encoding `h.String()` of the
external hash package (an invertible encoding of the digest). -/
def hashString (h : Hash) : Bytes := h.digest

/-- Modelled from the spec: `hash.Parse`, the inverse of `hashString` on
values this store writes. -/
def hashParse (b : Bytes) : Hash := ⟨b⟩

theorem hashParse_hashString (h : Hash) : hashParse (hashString h) = h := rfl

/-- Modelled from the spec: an immutable content-addressed chunk
(`chunks.Chunk`, whose constructor lives outside the files under
scrutiny). It carries the hash it was constructed with on trust — the
spec's trust boundary: the store never recomputes the digest. -/
structure Chunk where
  hash : Hash
  data : Bytes
deriving DecidableEq, Repr

/-- Modelled from the spec: `chunks.NewChunkWithHash(ref, data)` takes
the caller-supplied hash on faith. -/
def NewChunkWithHash (ref : Hash) (data : Bytes) : Chunk := ⟨ref, data⟩

/-- Modelled from the spec: the empty-chunk sentinel `chunks.EmptyChunk`
returned by `getByKey` on content-addressed absence. -/
def EmptyChunk : Chunk := ⟨⟨[]⟩, []⟩

/-- Modelled from the spec: the external snappy blob codec, consumed at
its interface boundary — an encode with a (partial) decode inverting it.
`decode` returns `none` on bytes that are not valid codec output, which
the source turns into a `d.Chk.NoError` panic. -/
structure Codec where
  encode : Bytes → Bytes
  decode : Bytes → Option Bytes
  decode_encode : ∀ b, decode (encode b) = some b

/-- `internalLevelDBStore`: one physical engine handle plus running
counters. The root mutex and write semaphore guard the transformations
modelled here and carry no further state of their own. -/
structure internalLevelDBStore where
  db : DB
  getCount : Int
  hasCount : Int
  putCount : Int
  putBytes : Int
  dumpStats : Bool
deriving DecidableEq, Repr

/-- `newBackingStore(dir, maxFileHandles, dumpStats)` at a fresh (empty)
directory: an empty engine and zeroed counters. Directory handling and
the file-handle budget are filesystem concerns outside the model. -/
def newBackingStore (dumpStats : Bool) : internalLevelDBStore :=
  { db := [], getCount := 0, hasCount := 0, putCount := 0, putBytes := 0,
    dumpStats := dumpStats }

/-- `rootByKey`: read the raw value at `key`; absent means the zero-hash
sentinel; otherwise parse the stored text. -/
def internalLevelDBStore.rootByKey (l : internalLevelDBStore) (key : Bytes) : Hash :=
  match dbGet l.db key with
  | none => zeroHash
  | some val => hashParse val

/-- `updateRootByKey`: under the store mutex, re-read the persisted
root; if it differs from `last`, fail with no write; otherwise write
`current.String()` (with a synchronous flush) and succeed. -/
def internalLevelDBStore.updateRootByKey (l : internalLevelDBStore)
    (key : Bytes) (current last : Hash) : Bool × internalLevelDBStore :=
  if last ≠ l.rootByKey key then
    (false, l)
  else
    (true, { l with db := dbPut l.db key (hashString current) })

/-- `getByKey`: engine read, get-counter bump, empty-chunk sentinel on
not-found, blob-codec decode otherwise, chunk rebuilt around the
caller's `ref`. -/
def internalLevelDBStore.getByKey (codec : Codec) (l : internalLevelDBStore)
    (key : Bytes) (ref : Hash) : Except Fault (Chunk × internalLevelDBStore) :=
  let l1 := { l with getCount := l.getCount + 1 }
  match dbGet l.db key with
  | none => .ok (EmptyChunk, l1)
  | some compressed =>
    match codec.decode compressed with
    | none => .error .decodeFailed
    | some data => .ok (NewChunkWithHash ref data, l1)

/-- `hasByKey`: cache-bypassing membership probe plus has-counter bump. -/
def internalLevelDBStore.hasByKey (l : internalLevelDBStore) (key : Bytes) :
    Bool × internalLevelDBStore :=
  (dbHas l.db key, { l with hasCount := l.hasCount + 1 })

/-- `putByKey`: encode through the blob codec, write, bump the put
counters. The write-concurrency semaphore brackets this in the source. -/
def internalLevelDBStore.putByKey (codec : Codec) (l : internalLevelDBStore)
    (key : Bytes) (c : Chunk) : internalLevelDBStore :=
  let data := codec.encode c.data
  { l with db := dbPut l.db key data,
           putCount := l.putCount + 1,
           putBytes := l.putBytes + data.length }

/-- `putBatch`: apply one atomic multi-key batch in order and bump the
aggregate counters. -/
def internalLevelDBStore.putBatch (l : internalLevelDBStore)
    (entries : List (Bytes × Bytes)) (numBytes : Int) : internalLevelDBStore :=
  { l with db := entries.foldl (fun db kv => dbPut db kv.1 kv.2) l.db,
           putCount := l.putCount + entries.length,
           putBytes := l.putBytes + numBytes }

/-- The diagnostic summary `internalLevelDBStore.Close` prints when
`dumpStats` is set. -/
structure LevelDBStats where
  getCount : Int
  hasCount : Int
  putCount : Int
  avgPutSize : Int
deriving DecidableEq, Repr

/-- `internalLevelDBStore.Close`: release the engine handle and, when
`dumpStats` is set, emit counts and `putBytes/putCount` — translated
verbatim, so the division is reached whenever `dumpStats` holds,
including with a zero put count. -/
def internalLevelDBStore.Close (l : internalLevelDBStore) :
    Except Fault (Option LevelDBStats) :=
  if l.dumpStats then
    match goIntDiv l.putBytes l.putCount with
    | .error f => .error f
    | .ok avg => .ok (some ⟨l.getCount, l.hasCount, l.putCount, avg⟩)
  else
    .ok none

/-- `"/root"` as ASCII bytes. -/
def rootKeyConst : Bytes := [47, 114, 111, 111, 116]

/-- `"/chunk/"` as ASCII bytes. -/
def chunkPrefConst : Bytes := [47, 99, 104, 117, 110, 107, 47]

/-- `LevelDBStore`: a namespace-scoped view of one physical store. The
embedded `*internalLevelDBStore` pointer is `none` after `Close()`. -/
structure LevelDBStore where
  internal : Option internalLevelDBStore
  rootKey : Bytes
  chunkPref : Bytes
  closeBackingStore : Bool
deriving DecidableEq, Repr

/-- `newLevelDBStore(store, ns, closeBackingStore)`: scope the root key
and chunk key base under the namespace. -/
def newLevelDBStore (store : internalLevelDBStore) (ns : Bytes)
    (closeBackingStore : Bool) : LevelDBStore :=
  { internal := some store,
    rootKey := ns ++ rootKeyConst,
    chunkPref := ns ++ chunkPrefConst,
    closeBackingStore := closeBackingStore }

/-- `NewLevelDBStore(dir, ns, maxFileHandles, dumpStats)` over a fresh
directory: standalone store owning its backing store. -/
def NewLevelDBStore (ns : Bytes) (dumpStats : Bool) : LevelDBStore :=
  newLevelDBStore (newBackingStore dumpStats) ns true

/-- `toChunkKey`: `<ns>/chunk/<digest bytes>`. -/
def LevelDBStore.toChunkKey (l : LevelDBStore) (r : Hash) : Bytes :=
  l.chunkPref ++ r.digest

/-- `Root()`: asserts the store is not closed, then reads the root. -/
def LevelDBStore.Root (l : LevelDBStore) : Except Fault Hash :=
  match l.internal with
  | none => .error .assertionFailed
  | some s => .ok (s.rootByKey l.rootKey)

/-- `UpdateRoot(current, last)`: asserts the store is not closed, then
performs the optimistic compare-and-swap. -/
def LevelDBStore.UpdateRoot (l : LevelDBStore) (current last : Hash) :
    Except Fault (Bool × LevelDBStore) :=
  match l.internal with
  | none => .error .assertionFailed
  | some s =>
    let r := s.updateRootByKey l.rootKey current last
    .ok (r.1, { l with internal := some r.2 })

/-- `Get(ref)`: asserts the store is not closed, then reads by chunk key. -/
def LevelDBStore.Get (codec : Codec) (l : LevelDBStore) (ref : Hash) :
    Except Fault (Chunk × LevelDBStore) :=
  match l.internal with
  | none => .error .assertionFailed
  | some s =>
    match s.getByKey codec (l.toChunkKey ref) ref with
    | .error f => .error f
    | .ok (c, s1) => .ok (c, { l with internal := some s1 })

/-- `Has(ref)`: asserts the store is not closed, then probes by chunk key. -/
def LevelDBStore.Has (l : LevelDBStore) (ref : Hash) :
    Except Fault (Bool × LevelDBStore) :=
  match l.internal with
  | none => .error .assertionFailed
  | some s =>
    let r := s.hasByKey (l.toChunkKey ref)
    .ok (r.1, { l with internal := some r.2 })

/-- `Put(c)`: asserts the store is not closed, then writes under the
chunk key derived from the chunk's own (caller-computed) hash. -/
def LevelDBStore.Put (codec : Codec) (l : LevelDBStore) (c : Chunk) :
    Except Fault LevelDBStore :=
  match l.internal with
  | none => .error .assertionFailed
  | some s =>
    .ok { l with internal := some (s.putByKey codec (l.toChunkKey c.hash) c) }

/-- The advisory backpressure signal of `PutMany`; always empty today. -/
abbrev BackpressureError := List Hash

/-- `PutMany(chunks)`: builds the batch (encoding each chunk and keying
it by its own hash) and submits it. NOTE: unlike every other operation,
the source performs NO use-after-close assertion here; after `Close()`
the call dereferences the nil embedded store pointer inside `putBatch`
and panics with a nil dereference, not with the assertion. -/
def LevelDBStore.PutMany (codec : Codec) (l : LevelDBStore) (chunks : List Chunk) :
    Except Fault (BackpressureError × LevelDBStore) :=
  let entries := chunks.map (fun c => (l.toChunkKey c.hash, codec.encode c.data))
  let numBytes : Int := entries.foldl (fun n kv => n + kv.2.length) 0
  match l.internal with
  | none => .error .nilDeref
  | some s => .ok ([], { l with internal := some (s.putBatch entries numBytes) })

/-- `LevelDBStore.Close()`: closes the backing store when owned (a
second close would dereference nil), then drops the embedded pointer. -/
def LevelDBStore.Close (l : LevelDBStore) :
    Except Fault (Option LevelDBStats × LevelDBStore) :=
  if l.closeBackingStore then
    match l.internal with
    | none => .error .nilDeref
    | some s =>
      match s.Close with
      | .error f => .error f
      | .ok stats => .ok (stats, { l with internal := none })
  else
    .ok (none, { l with internal := none })

/-!
## Table mutation session (`table_data_loc.go`)

The session's external collaborators — `doltdb.RootValue`, the table
editor, the row/schema codec — live outside the two files under
scrutiny and are modelled at their interface boundary. Rows are pairs
of encoded key/value tuples; the editor is observed through the trace
of `InsertRow`/`UpdateRow` calls it receives; the GC routine is
observed through an invocation counter. Collaborator errors (context
cancellation, engine failures) are out of the model: each claim speaks
about the non-error path of the session itself.
-/

/-- `tableWriterStatUpdateRate = 2 << 15`: writes between stats-callback
invocations. -/
def tableWriterStatUpdateRate : Int := 2 * 2 ^ 15

/-- `tableWriterGCRate = 2 << 16`: writes between GC passes. -/
def tableWriterGCRate : Int := 2 * 2 ^ 16

/-- Modelled from the spec: a row of the external row codec, reduced to
its encoded primary-key tuple (`r.NomsMapKey(sch).Value(ctx)`) and its
encoded value tuple. -/
structure Row where
  key : Bytes
  val : Bytes
deriving DecidableEq, Repr

/-- Modelled from the spec: the external schema collaborator, reduced
to its primary-key column set (`GetPKCols`). -/
structure Schema where
  pkCols : List String
deriving DecidableEq, Repr

/-- Modelled from the spec: `r.NomsMapKey(te.tableSch)` — primary-key
extraction by the row codec. -/
def rowNomsMapKey (_sch : Schema) (r : Row) : Bytes := r.key

/-- Modelled from the spec: `row.FromNoms(sch, pkTuple, valTuple)` —
rebuild a row from its stored key/value tuples. -/
def rowFromNoms (_sch : Schema) (pk v : Bytes) : Row := ⟨pk, v⟩

/-- Modelled from the spec: `row.AreEqual(r1, r2, sch)` — field-by-field
equality, which coincides with equality of the encoded tuples. -/
def rowsAreEqual (r1 r2 : Row) (_sch : Schema) : Bool := r1 = r2

/-- The persistent ordered map holding a table's row data
(`types.Map`), as an association list of encoded tuples. -/
abbrev NomsMap := List (Bytes × Bytes)

/-- `initialData.MaybeGet(ctx, pkTuple)`: lookup in the snapshot map. -/
def nomsMapMaybeGet : NomsMap → Bytes → Option Bytes
  | [], _ => none
  | (k0, v0) :: rest, k => if k0 = k then some v0 else nomsMapMaybeGet rest k

/-- `types.AppliedEditStats`: the cumulative session statistics. -/
structure AppliedEditStats where
  additions : Int
  modifications : Int
  sameVal : Int
deriving DecidableEq, Repr

/-- One call into the table editor, the session's downstream effect. -/
inductive TableEdit where
  | insertRow (r : Row)
  | updateRow (oldRow newRow : Row)
deriving DecidableEq, Repr

/-- `tableEditorWriteCloser`: the session state. `statsCB` records
whether a stats callback is configured (`te.statsCB != nil`);
`editLog` is the trace of `InsertRow`/`UpdateRow` calls emitted to the
table editor; `statsCalls` the trace of callback invocations (each with
the stats snapshot it received); `gcRuns` the number of GC passes. -/
structure tableEditorWriteCloser where
  insertOnly : Bool
  initialData : NomsMap
  tableSch : Schema
  statsCB : Bool
  stats : AppliedEditStats
  statOps : Int
  gcOps : Int
  editLog : List TableEdit
  statsCalls : List AppliedEditStats
  gcRuns : Nat
deriving DecidableEq, Repr

/-- `WriteRow` step 1: if a stats callback is configured and the
stats-cadence counter has reached `tableWriterStatUpdateRate`, reset
the counter and invoke the callback with the current cumulative stats. -/
def statPhase (te : tableEditorWriteCloser) : tableEditorWriteCloser :=
  if te.statsCB ∧ te.statOps ≥ tableWriterStatUpdateRate then
    { te with statOps := 0, statsCalls := te.statsCalls ++ [te.stats] }
  else te

/-- `WriteRow` steps 2–3: if the GC-cadence counter has reached
`tableWriterGCRate`, reset it and run the GC routine; then increment
the GC-cadence counter. -/
def gcPhase (te : tableEditorWriteCloser) : tableEditorWriteCloser :=
  let te1 :=
    if te.gcOps ≥ tableWriterGCRate then
      { te with gcOps := 0, gcRuns := te.gcRuns + 1 }
    else te
  { te1 with gcOps := te1.gcOps + 1 }

/-- `WriteRow` step 4: in insert-only mode, unconditionally insert; in
upsert mode, look the primary key up in the *initial* map snapshot —
absent means insert (addition); present and field-by-field equal means
a no-op match (no edit emitted); present and different means an update
(modification). -/
def rowPhase (te : tableEditorWriteCloser) (r : Row) : tableEditorWriteCloser :=
  if te.insertOnly then
    { te with statOps := te.statOps + 1,
              stats := { te.stats with additions := te.stats.additions + 1 },
              editLog := te.editLog ++ [.insertRow r] }
  else
    match nomsMapMaybeGet te.initialData (rowNomsMapKey te.tableSch r) with
    | none =>
      { te with statOps := te.statOps + 1,
                stats := { te.stats with additions := te.stats.additions + 1 },
                editLog := te.editLog ++ [.insertRow r] }
    | some val =>
      let oldRow := rowFromNoms te.tableSch (rowNomsMapKey te.tableSch r) val
      if rowsAreEqual r oldRow te.tableSch then
        { te with stats := { te.stats with sameVal := te.stats.sameVal + 1 } }
      else
        { te with statOps := te.statOps + 1,
                  stats := { te.stats with modifications := te.stats.modifications + 1 },
                  editLog := te.editLog ++ [.updateRow oldRow r] }

/-- `tableEditorWriteCloser.WriteRow`, the three phases in source
order: stats check, then GC check and counter increment, then the
row-level dispatch. -/
def tableEditorWriteCloser.WriteRow (te : tableEditorWriteCloser) (r : Row) :
    tableEditorWriteCloser :=
  rowPhase (gcPhase (statPhase te)) r

/-- `TableDataLocation`: a named dolt table to import into. -/
structure TableDataLocation where
  Name : String
deriving DecidableEq, Repr

/-- The typed `ErrNoPK` condition of writer construction; collaborator
failures would be generic propagated errors, out of this model. -/
inductive WriterError where
  | errNoPK
deriving DecidableEq, Repr

/-- `TableDataLocation.NewCreatingWriter`: fails with the typed
`ErrNoPK` before any table or session state is created when the target
schema has no primary-key column; otherwise builds a session over an
empty map (`types.NewMap`) in insert-only mode. -/
def TableDataLocation.NewCreatingWriter (_dl : TableDataLocation)
    (outSch : Schema) (statsCB : Bool) :
    Except WriterError tableEditorWriteCloser :=
  if outSch.pkCols.length = 0 then
    .error .errNoPK
  else
    .ok { insertOnly := true, initialData := [], tableSch := outSch,
          statsCB := statsCB, stats := ⟨0, 0, 0⟩, statOps := 0, gcOps := 0,
          editLog := [], statsCalls := [], gcRuns := 0 }

/-- `TableDataLocation.NewUpdatingWriter`: starts from the existing row
map of the table with the table's own schema, in upsert mode. -/
def TableDataLocation.NewUpdatingWriter (_dl : TableDataLocation)
    (rowData : NomsMap) (tblSch : Schema) (statsCB : Bool) :
    tableEditorWriteCloser :=
  { insertOnly := false, initialData := rowData, tableSch := tblSch,
    statsCB := statsCB, stats := ⟨0, 0, 0⟩, statOps := 0, gcOps := 0,
    editLog := [], statsCalls := [], gcRuns := 0 }

/-!
## Claim theorems: the chunk store
-/

/-- C1: For every store state, `UpdateRoot(current, last)` succeeds if
and only if the persisted root value at the namespace's root key equals
`last` at the time of the call; after a successful call, `Root()`
returns `current`; after a failed call, no write is attempted and
`Root()` returns the same value as before the call. -/
theorem C1_updateRoot_cas (l : LevelDBStore) (s : internalLevelDBStore)
    (current last : Hash) (hs : l.internal = some s) :
    ∃ b l2, l.UpdateRoot current last = Except.ok (b, l2) ∧
      ((b = true) ↔ s.rootByKey l.rootKey = last) ∧
      (b = true → l2.Root = Except.ok current) ∧
      (b = false → l2 = l ∧ l2.Root = l.Root) := by
  by_cases h : last = s.rootByKey l.rootKey
  · refine ⟨true,
      { l with internal := some { s with db := dbPut s.db l.rootKey (hashString current) } },
      ?_, ?_, ?_, ?_⟩
    · simp [LevelDBStore.UpdateRoot, hs, internalLevelDBStore.updateRootByKey, h]
    · simp [h]
    · intro _
      simp [LevelDBStore.Root, internalLevelDBStore.rootByKey, dbGet_dbPut_self,
        hashParse_hashString]
    · intro hb
      cases hb
  · refine ⟨false, l, ?_, ?_, ?_, ?_⟩
    · have hl : ({ l with internal := some s } : LevelDBStore) = l := by
        rw [← hs]
      calc l.UpdateRoot current last
          = Except.ok (false, { l with internal := some s }) := by
            simp [LevelDBStore.UpdateRoot, hs, internalLevelDBStore.updateRootByKey, h]
      _ = Except.ok (false, l) := by rw [hl]
    · simp only [Bool.false_eq_true, false_iff]
      exact fun he => h he.symm
    · intro hb
      cases hb
    · intro _
      exact ⟨rfl, rfl⟩

/-- C5: For every chunk written via `Put` under its key, a subsequent
`Get` with the same key returns content byte-for-byte equal to the
chunk's original bytes: the blob-codec encode performed by `put` and
the decode performed by `get` round-trip. -/
theorem C5_put_get_roundtrip (codec : Codec) (l : LevelDBStore)
    (s : internalLevelDBStore) (c : Chunk) (hs : l.internal = some s) :
    ∃ l1 l2, l.Put codec c = Except.ok l1 ∧
      l1.Get codec c.hash = Except.ok (NewChunkWithHash c.hash c.data, l2) ∧
      (NewChunkWithHash c.hash c.data).data = c.data := by
  refine ⟨{ l with internal := some (s.putByKey codec (l.toChunkKey c.hash) c) },
    { l with internal := some { s.putByKey codec (l.toChunkKey c.hash) c with
        getCount := (s.putByKey codec (l.toChunkKey c.hash) c).getCount + 1 } },
    ?_, ?_, rfl⟩
  · simp [LevelDBStore.Put, hs]
  · simp [LevelDBStore.Get, LevelDBStore.toChunkKey,
      internalLevelDBStore.getByKey, internalLevelDBStore.putByKey,
      dbGet_dbPut_self, codec.decode_encode]

/-- C6: For every key under which no chunk is present, `Has` returns
`false` and `Get` returns the empty-chunk sentinel; absence is not
surfaced as an error by either operation. -/
theorem C6_absent_sentinel (codec : Codec) (l : LevelDBStore)
    (s : internalLevelDBStore) (ref : Hash) (hs : l.internal = some s)
    (habs : dbGet s.db (l.toChunkKey ref) = none) :
    (∃ l1, l.Has ref = Except.ok (false, l1)) ∧
    (∃ l2, l.Get codec ref = Except.ok (EmptyChunk, l2)) := by
  constructor
  · refine ⟨{ l with internal := some { s with hasCount := s.hasCount + 1 } }, ?_⟩
    simp [LevelDBStore.Has, hs, internalLevelDBStore.hasByKey, dbHas, habs]
  · refine ⟨{ l with internal := some { s with getCount := s.getCount + 1 } }, ?_⟩
    simp [LevelDBStore.Get, hs, internalLevelDBStore.getByKey, habs]

/-- C7: For every namespace whose root key has no persisted value,
`Root()` returns the zero-hash sentinel rather than an error; in
particular a freshly opened store at an empty directory returns the
zero hash from `Root()`. -/
theorem C7_root_zero_sentinel :
    (∀ (l : LevelDBStore) (s : internalLevelDBStore), l.internal = some s →
        dbGet s.db l.rootKey = none → l.Root = Except.ok zeroHash) ∧
    (∀ (ns : Bytes) (ds : Bool), (NewLevelDBStore ns ds).Root = Except.ok zeroHash) := by
  constructor
  · intro l s hs habs
    simp [LevelDBStore.Root, hs, internalLevelDBStore.rootByKey, habs]
  · intro ns ds
    simp [NewLevelDBStore, newLevelDBStore, newBackingStore, LevelDBStore.Root,
      internalLevelDBStore.rootByKey, dbGet]

/-- C10: For every hash `ref` and every value stored under `ref`'s
chunk key, `Get(ref)` returns a chunk whose hash field is exactly the
caller-supplied `ref` with the decoded stored bytes as content, and
`Put(c)` stores `c`'s encoded bytes under the key derived from `c`'s
own hash field: the store never recomputes the digest of the bytes to
verify they actually hash to `ref`, on read or on write. -/
theorem C10_no_digest_verification (codec : Codec) (l : LevelDBStore)
    (s : internalLevelDBStore) (hs : l.internal = some s) :
    (∀ (ref : Hash) (v d : Bytes),
        dbGet s.db (l.toChunkKey ref) = some v → codec.decode v = some d →
        ∃ l1, l.Get codec ref = Except.ok (NewChunkWithHash ref d, l1)) ∧
    (∀ c : Chunk, l.Put codec c = Except.ok
        { l with internal := some (s.putByKey codec (l.toChunkKey c.hash) c) }) := by
  constructor
  · intro ref v d hv hd
    refine ⟨{ l with internal := some { s with getCount := s.getCount + 1 } }, ?_⟩
    simp [LevelDBStore.Get, hs, internalLevelDBStore.getByKey, hv, hd]
  · intro c
    simp [LevelDBStore.Put, hs]

/-!
## C3 and C4: where the code deviates from the stated claims
-/

/-- A concrete codec instance for witnesses: length-byte plus literal
bytes, with the evident decode. -/
def codecW : Codec where
  encode b := b.length :: b
  decode b := match b with
    | [] => none
    | _ :: t => some t
  decode_encode := fun _ => rfl

/-- A concrete namespace for witnesses. -/
def nsW : Bytes := [110]

/-- A freshly opened standalone store for witnesses. -/
def storeW : LevelDBStore := NewLevelDBStore nsW false

/-- `storeW` after `Close()`: the embedded store pointer is gone. -/
def closedStoreW : LevelDBStore := { storeW with internal := none }

/-- C3 counterexample: after `Close()`, `PutMany` does not fail with the
use-after-close assertion — the source omits the `d.Chk.True` check
that every other operation performs, and the call instead dereferences
the nil embedded store pointer inside `putBatch`. -/
theorem C3_counterexample :
    storeW.Close = Except.ok (none, closedStoreW) ∧
    closedStoreW.PutMany codecW [] = Except.error Fault.nilDeref ∧
    Fault.nilDeref ≠ Fault.assertionFailed :=
  ⟨rfl, rfl, by decide⟩

/-- C3 amended: after `Close()`, `Root`, `UpdateRoot`, `Get`, `Has` and
`Put` each fail loudly with the use-after-close assertion fault, while
`PutMany` — which performs no such assertion — fails loudly with a
nil-pointer dereference fault; no operation silently succeeds or is a
no-op. -/
theorem C3_use_after_close (codec : Codec) (l l2 : LevelDBStore)
    (stats : Option LevelDBStats) (hclose : l.Close = Except.ok (stats, l2))
    (current last ref : Hash) (c : Chunk) (cs : List Chunk) :
    l2.Root = Except.error Fault.assertionFailed ∧
    l2.UpdateRoot current last = Except.error Fault.assertionFailed ∧
    l2.Get codec ref = Except.error Fault.assertionFailed ∧
    l2.Has ref = Except.error Fault.assertionFailed ∧
    l2.Put codec c = Except.error Fault.assertionFailed ∧
    l2.PutMany codec cs = Except.error Fault.nilDeref := by
  have hint : l2.internal = none := by
    unfold LevelDBStore.Close at hclose
    split at hclose
    · cases hi : l.internal with
      | none => rw [hi] at hclose; simp at hclose
      | some s =>
        rw [hi] at hclose
        cases hc : s.Close with
        | error f =>
          simp only [hc] at hclose
          exact absurd hclose (by simp)
        | ok st =>
          simp only [hc, Except.ok.injEq, Prod.mk.injEq] at hclose
          rw [← hclose.2]
    · simp only [Except.ok.injEq, Prod.mk.injEq] at hclose
      rw [← hclose.2]
  refine ⟨?_, ?_, ?_, ?_, ?_, ?_⟩ <;>
    simp [LevelDBStore.Root, LevelDBStore.UpdateRoot, LevelDBStore.Get,
      LevelDBStore.Has, LevelDBStore.Put, LevelDBStore.PutMany, hint]

/-- C3 witness: the amended theorem at the concrete closed store. -/
theorem C3_use_after_close_w :
    closedStoreW.Root = Except.error Fault.assertionFailed ∧
    closedStoreW.UpdateRoot ⟨[1]⟩ zeroHash = Except.error Fault.assertionFailed ∧
    closedStoreW.Get codecW ⟨[1]⟩ = Except.error Fault.assertionFailed ∧
    closedStoreW.Has ⟨[1]⟩ = Except.error Fault.assertionFailed ∧
    closedStoreW.Put codecW ⟨⟨[1]⟩, [5]⟩ = Except.error Fault.assertionFailed ∧
    closedStoreW.PutMany codecW [] = Except.error Fault.nilDeref :=
  C3_use_after_close codecW storeW closedStoreW none rfl ⟨[1]⟩ zeroHash ⟨[1]⟩
    ⟨⟨[1]⟩, [5]⟩ []

/-- C4 counterexample: closing a stats-collecting store that never
served a put reaches `putBytes/putCount` with a zero `putCount` — the
division is not guarded, and `Close` faults with a division by zero. -/
theorem C4_counterexample :
    (newBackingStore true).Close = Except.error Fault.divByZero := rfl

/-- C4 amended: the average-put-size computation in `Close` is NOT
guarded against division by zero: with stats collection enabled and a
zero put count, `Close` faults with a division-by-zero; it completes
normally whenever the put count is nonzero or stats collection is
disabled. -/
theorem C4_close_division (s : internalLevelDBStore) :
    (s.dumpStats = true → s.putCount = 0 →
        s.Close = Except.error Fault.divByZero) ∧
    (s.dumpStats = true → s.putCount ≠ 0 →
        s.Close = Except.ok (some
          ⟨s.getCount, s.hasCount, s.putCount, s.putBytes / s.putCount⟩)) ∧
    (s.dumpStats = false → s.Close = Except.ok none) := by
  refine ⟨?_, ?_, ?_⟩
  · intro hd hz
    simp [internalLevelDBStore.Close, hd, hz, goIntDiv]
  · intro hd hz
    simp [internalLevelDBStore.Close, hd, hz, goIntDiv]
  · intro hd
    simp [internalLevelDBStore.Close, hd]

/-- C4 witness: the amended theorem at concrete stores on both sides of
the guard condition. -/
theorem C4_close_division_w :
    ({ newBackingStore true with putCount := 2, putBytes := 10 }
        : internalLevelDBStore).Close = Except.ok (some ⟨0, 0, 2, 5⟩) ∧
    (newBackingStore false).Close = Except.ok none :=
  ⟨(C4_close_division { newBackingStore true with putCount := 2, putBytes := 10 }).2.1
      rfl (by decide),
   (C4_close_division (newBackingStore false)).2.2 rfl⟩

/-!
## Witness inputs and witnesses for the chunk-store claims
-/

/-- A concrete hash for witnesses. -/
def h1W : Hash := ⟨[1, 2, 3]⟩

/-- A concrete chunk for witnesses. -/
def cW : Chunk := ⟨h1W, [10, 20]⟩

/-- A backing store holding, under `h1W`'s chunk key, encoded bytes
whose content is unrelated to `h1W` — storable because nothing checks. -/
def misStoreW : internalLevelDBStore :=
  { newBackingStore false with
    db := [(nsW ++ chunkPrefConst ++ h1W.digest, codecW.encode [9, 9])] }

/-- A namespaced view of `misStoreW`. -/
def lMisW : LevelDBStore := newLevelDBStore misStoreW nsW true

/-- C1 witness: the compare-and-swap theorem at a fresh concrete store. -/
theorem C1_updateRoot_cas_w :
    ∃ b l2, storeW.UpdateRoot h1W zeroHash = Except.ok (b, l2) ∧
      ((b = true) ↔ (newBackingStore false).rootByKey storeW.rootKey = zeroHash) ∧
      (b = true → l2.Root = Except.ok h1W) ∧
      (b = false → l2 = storeW ∧ l2.Root = storeW.Root) :=
  C1_updateRoot_cas storeW (newBackingStore false) h1W zeroHash rfl

/-- C5 witness: the round-trip theorem at a concrete chunk. -/
theorem C5_put_get_roundtrip_w :
    ∃ l1 l2, storeW.Put codecW cW = Except.ok l1 ∧
      l1.Get codecW cW.hash = Except.ok (NewChunkWithHash cW.hash cW.data, l2) ∧
      (NewChunkWithHash cW.hash cW.data).data = cW.data :=
  C5_put_get_roundtrip codecW storeW (newBackingStore false) cW rfl

/-- C6 witness: the absence theorem at a fresh concrete store. -/
theorem C6_absent_sentinel_w :
    (∃ l1, storeW.Has h1W = Except.ok (false, l1)) ∧
    (∃ l2, storeW.Get codecW h1W = Except.ok (EmptyChunk, l2)) :=
  C6_absent_sentinel codecW storeW (newBackingStore false) h1W rfl rfl

/-- C7 witness: the zero-hash sentinel at fresh concrete stores. -/
theorem C7_root_zero_sentinel_w :
    storeW.Root = Except.ok zeroHash ∧
    (NewLevelDBStore nsW true).Root = Except.ok zeroHash :=
  ⟨C7_root_zero_sentinel.1 storeW (newBackingStore false) rfl rfl,
   C7_root_zero_sentinel.2 nsW true⟩

/-- C10 witness: reading back a stored value whose bytes have nothing
to do with the requested hash still succeeds and is stamped with the
caller's hash. -/
theorem C10_no_digest_verification_w :
    ∃ l1, lMisW.Get codecW h1W = Except.ok (NewChunkWithHash h1W [9, 9], l1) :=
  (C10_no_digest_verification codecW lMisW misStoreW rfl).1 h1W
    (codecW.encode [9, 9]) [9, 9] (by decide) rfl

/-!
## Claim theorems: the table mutation session
-/

/-- `statPhase` only touches the stats-cadence counter and the callback
trace. -/
theorem statPhase_eq (te : tableEditorWriteCloser) :
    ∃ so sc, statPhase te = { te with statOps := so, statsCalls := sc } := by
  unfold statPhase
  split
  · exact ⟨_, _, rfl⟩
  · exact ⟨te.statOps, te.statsCalls, rfl⟩

/-- `gcPhase` only touches the GC-cadence counter and the GC trace. -/
theorem gcPhase_eq (te : tableEditorWriteCloser) :
    ∃ go gr, gcPhase te = { te with gcOps := go, gcRuns := gr } := by
  unfold gcPhase
  split
  · exact ⟨_, _, rfl⟩
  · exact ⟨_, _, rfl⟩

/-- `rowPhase` never changes the session mode, the snapshot, the
schema, the callback configuration, the GC state or the callback
trace. -/
theorem rowPhase_preserved (te : tableEditorWriteCloser) (r : Row) :
    (rowPhase te r).insertOnly = te.insertOnly ∧
    (rowPhase te r).initialData = te.initialData ∧
    (rowPhase te r).tableSch = te.tableSch ∧
    (rowPhase te r).statsCB = te.statsCB ∧
    (rowPhase te r).gcOps = te.gcOps ∧
    (rowPhase te r).gcRuns = te.gcRuns ∧
    (rowPhase te r).statsCalls = te.statsCalls := by
  unfold rowPhase
  split
  · exact ⟨rfl, rfl, rfl, rfl, rfl, rfl, rfl⟩
  · split
    · exact ⟨rfl, rfl, rfl, rfl, rfl, rfl, rfl⟩
    · dsimp only
      split
      · exact ⟨rfl, rfl, rfl, rfl, rfl, rfl, rfl⟩
      · exact ⟨rfl, rfl, rfl, rfl, rfl, rfl, rfl⟩

/-- `rowPhase` bumps the stats-cadence counter by one except on a
no-op match, where it leaves it alone. -/
theorem rowPhase_statOps (te : tableEditorWriteCloser) (r : Row) :
    (rowPhase te r).statOps = te.statOps + 1 ∨
    (rowPhase te r).statOps = te.statOps := by
  unfold rowPhase
  split
  · exact Or.inl rfl
  · split
    · exact Or.inl rfl
    · dsimp only
      split
      · exact Or.inr rfl
      · exact Or.inl rfl

/-- C2: In upsert (non-insert-only) mode, for every row written,
`WriteRow` looks the row's primary key up in the initial map snapshot
fixed at session creation (never in the edits accumulated during the
session — the snapshot is preserved verbatim): if the key is absent it
inserts the row and increments additions; if present and the stored
row equals the incoming row field-by-field it increments the no-op
(`sameVal`) count and emits no edit; if present and different it emits
an update and increments modifications. -/
theorem C2_upsert_write_row (te : tableEditorWriteCloser) (r : Row)
    (hmode : te.insertOnly = false) :
    ((te.WriteRow r).initialData = te.initialData ∧
     (te.WriteRow r).insertOnly = false) ∧
    (nomsMapMaybeGet te.initialData (rowNomsMapKey te.tableSch r) = none →
       (te.WriteRow r).stats.additions = te.stats.additions + 1 ∧
       (te.WriteRow r).stats.modifications = te.stats.modifications ∧
       (te.WriteRow r).stats.sameVal = te.stats.sameVal ∧
       (te.WriteRow r).editLog = te.editLog ++ [TableEdit.insertRow r]) ∧
    (∀ v, nomsMapMaybeGet te.initialData (rowNomsMapKey te.tableSch r) = some v →
       rowsAreEqual r (rowFromNoms te.tableSch (rowNomsMapKey te.tableSch r) v)
           te.tableSch = true →
       (te.WriteRow r).stats.sameVal = te.stats.sameVal + 1 ∧
       (te.WriteRow r).stats.additions = te.stats.additions ∧
       (te.WriteRow r).stats.modifications = te.stats.modifications ∧
       (te.WriteRow r).editLog = te.editLog) ∧
    (∀ v, nomsMapMaybeGet te.initialData (rowNomsMapKey te.tableSch r) = some v →
       rowsAreEqual r (rowFromNoms te.tableSch (rowNomsMapKey te.tableSch r) v)
           te.tableSch = false →
       (te.WriteRow r).stats.modifications = te.stats.modifications + 1 ∧
       (te.WriteRow r).stats.additions = te.stats.additions ∧
       (te.WriteRow r).stats.sameVal = te.stats.sameVal ∧
       (te.WriteRow r).editLog = te.editLog ++
         [TableEdit.updateRow (rowFromNoms te.tableSch (rowNomsMapKey te.tableSch r) v) r]) := by
  obtain ⟨so, sc, hst⟩ := statPhase_eq te
  obtain ⟨go, gr, hgc⟩ := gcPhase_eq (statPhase te)
  rw [hst] at hgc
  have hw : te.WriteRow r =
      rowPhase { te with statOps := so, statsCalls := sc, gcOps := go, gcRuns := gr } r := by
    unfold tableEditorWriteCloser.WriteRow
    rw [hst, hgc]
  refine ⟨?_, ?_, ?_, ?_⟩
  · rw [hw]
    exact ⟨(rowPhase_preserved _ r).2.1, ((rowPhase_preserved _ r).1).trans hmode⟩
  · intro h
    rw [hw]
    unfold rowPhase
    simp [hmode, h]
  · intro v h heq
    rw [hw]
    unfold rowPhase
    simp [hmode, h, heq]
  · intro v h heq
    rw [hw]
    unfold rowPhase
    simp [hmode, h, heq]

/-- A concrete Update-mode session for the C2 witness. -/
def updWriterW : tableEditorWriteCloser :=
  TableDataLocation.NewUpdatingWriter ⟨"t"⟩ [([1], [7])] ⟨["id"]⟩ false

/-- C2 witness: the upsert characterization at a concrete session over
the snapshot `[1] \mapsto [7]`: a same-value row is a no-op, a fresh
key is an addition, a changed row is a modification. -/
theorem C2_upsert_write_row_w :
    (updWriterW.WriteRow ⟨[1], [7]⟩).stats.sameVal = 1 ∧
    (updWriterW.WriteRow ⟨[1], [7]⟩).editLog = [] ∧
    (updWriterW.WriteRow ⟨[2], [9]⟩).stats.additions = 1 ∧
    (updWriterW.WriteRow ⟨[2], [9]⟩).editLog = [TableEdit.insertRow ⟨[2], [9]⟩] ∧
    (updWriterW.WriteRow ⟨[1], [8]⟩).stats.modifications = 1 := by
  have hsame := (C2_upsert_write_row updWriterW ⟨[1], [7]⟩ rfl).2.2.1 [7]
    (by decide) (by decide)
  have hadd := (C2_upsert_write_row updWriterW ⟨[2], [9]⟩ rfl).2.1 (by decide)
  have hmod := (C2_upsert_write_row updWriterW ⟨[1], [8]⟩ rfl).2.2.2 [7]
    (by decide) (by decide)
  refine ⟨by simpa using hsame.1, by simpa using hsame.2.2.2,
    by simpa using hadd.1, by simpa using hadd.2.2.2, by simpa using hmod.1⟩

/-- C8: In `WriteRow`, the stats callback fires exactly when one is
configured and the stats-cadence counter has reached the threshold
`2 << 15 = 2^16 = 65536` (resetting that counter before the row is
counted), the GC routine runs exactly when the GC-cadence counter has
reached the threshold `2 << 16 = 2^17 = 131072` (resetting that
counter), the callback receives the statistics from before the row is
processed (the stats check precedes the GC check and the row work),
and the GC counter is incremented after the GC check — a triggered
call ends with the GC counter at 1, an untriggered one at its old
value plus 1. -/
theorem C8_cadence (te : tableEditorWriteCloser) (r : Row) :
    (tableWriterStatUpdateRate = 65536 ∧ tableWriterGCRate = 131072) ∧
    (te.statsCB = true → te.statOps ≥ tableWriterStatUpdateRate →
        (te.WriteRow r).statsCalls = te.statsCalls ++ [te.stats] ∧
        (te.WriteRow r).statOps ≤ 1) ∧
    (¬(te.statsCB = true ∧ te.statOps ≥ tableWriterStatUpdateRate) →
        (te.WriteRow r).statsCalls = te.statsCalls) ∧
    (te.gcOps ≥ tableWriterGCRate →
        (te.WriteRow r).gcRuns = te.gcRuns + 1 ∧ (te.WriteRow r).gcOps = 1) ∧
    (te.gcOps < tableWriterGCRate →
        (te.WriteRow r).gcRuns = te.gcRuns ∧
        (te.WriteRow r).gcOps = te.gcOps + 1) := by
  have hcalls : (te.WriteRow r).statsCalls = (gcPhase (statPhase te)).statsCalls :=
    (rowPhase_preserved (gcPhase (statPhase te)) r).2.2.2.2.2.2
  have hruns : (te.WriteRow r).gcRuns = (gcPhase (statPhase te)).gcRuns :=
    (rowPhase_preserved (gcPhase (statPhase te)) r).2.2.2.2.2.1
  have hops : (te.WriteRow r).gcOps = (gcPhase (statPhase te)).gcOps :=
    (rowPhase_preserved (gcPhase (statPhase te)) r).2.2.2.2.1
  refine ⟨⟨by norm_num [tableWriterStatUpdateRate],
           by norm_num [tableWriterGCRate]⟩, ?_, ?_, ?_, ?_⟩
  · intro hcb hge
    have hst : statPhase te =
        { te with statOps := 0, statsCalls := te.statsCalls ++ [te.stats] } := by
      unfold statPhase
      rw [if_pos ⟨hcb, hge⟩]
    obtain ⟨go, gr, hgc⟩ := gcPhase_eq (statPhase te)
    constructor
    · rw [hcalls, hgc, hst]
    · have hzero : (gcPhase (statPhase te)).statOps = 0 := by
        rw [hgc, hst]
      rcases rowPhase_statOps (gcPhase (statPhase te)) r with h | h
      · unfold tableEditorWriteCloser.WriteRow
        rw [h, hzero]
        norm_num
      · unfold tableEditorWriteCloser.WriteRow
        rw [h, hzero]
        norm_num
  · intro hn
    have hst : statPhase te = te := by
      unfold statPhase
      rw [if_neg hn]
    obtain ⟨go, gr, hgc⟩ := gcPhase_eq (statPhase te)
    rw [hcalls, hgc, hst]
  · intro hge
    obtain ⟨so, sc, hst⟩ := statPhase_eq te
    have hcond : (statPhase te).gcOps ≥ tableWriterGCRate := by
      rw [hst]
      exact hge
    have hgc2 : gcPhase (statPhase te) =
        { statPhase te with gcOps := 0 + 1, gcRuns := (statPhase te).gcRuns + 1 } := by
      unfold gcPhase
      rw [if_pos hcond]
    constructor
    · rw [hruns, hgc2, hst]
    · rw [hops, hgc2]
      norm_num
  · intro hlt
    obtain ⟨so, sc, hst⟩ := statPhase_eq te
    have hcond : ¬((statPhase te).gcOps ≥ tableWriterGCRate) := by
      rw [hst]
      exact not_le.mpr hlt
    have hgc2 : gcPhase (statPhase te) =
        { statPhase te with gcOps := (statPhase te).gcOps + 1 } := by
      unfold gcPhase
      rw [if_neg hcond]
    constructor
    · rw [hruns, hgc2, hst]
    · rw [hops, hgc2, hst]

/-- A concrete session at both cadence thresholds for the C8 witness. -/
def teW : tableEditorWriteCloser :=
  { insertOnly := true, initialData := [], tableSch := ⟨["id"]⟩, statsCB := true,
    stats := ⟨5, 0, 0⟩, statOps := 65536, gcOps := 131072,
    editLog := [], statsCalls := [], gcRuns := 0 }

/-- C8 witness: at the thresholds, one write fires the callback with
the pre-row stats and runs one GC pass, leaving the GC counter at 1. -/
theorem C8_cadence_w :
    (teW.WriteRow ⟨[1], [2]⟩).statsCalls = [⟨5, 0, 0⟩] ∧
    (teW.WriteRow ⟨[1], [2]⟩).gcRuns = 1 ∧
    (teW.WriteRow ⟨[1], [2]⟩).gcOps = 1 := by
  obtain ⟨-, hb, -, hc, -⟩ := C8_cadence teW ⟨[1], [2]⟩
  have h1 := hb rfl (by norm_num [tableWriterStatUpdateRate, teW])
  have h2 := hc (by norm_num [tableWriterGCRate, teW])
  exact ⟨by simpa using h1.1, by simpa using h2.1, h2.2⟩

/-- C9: For every schema with zero primary-key columns, constructing a
Create-mode writer fails with the typed no-primary-key error before
any row is accepted and before any session state is created; for
schemas with at least one primary-key column, the Create-mode writer
starts from an empty map in insert-only mode with zeroed statistics
and an empty edit log. -/
theorem C9_creating_writer (dl : TableDataLocation) (outSch : Schema) (cb : Bool) :
    (outSch.pkCols.length = 0 →
        dl.NewCreatingWriter outSch cb = Except.error WriterError.errNoPK) ∧
    (outSch.pkCols.length ≠ 0 →
        dl.NewCreatingWriter outSch cb = Except.ok
          { insertOnly := true, initialData := [], tableSch := outSch,
            statsCB := cb, stats := ⟨0, 0, 0⟩, statOps := 0, gcOps := 0,
            editLog := [], statsCalls := [], gcRuns := 0 }) := by
  unfold TableDataLocation.NewCreatingWriter
  constructor <;> intro h <;> simp [h]

/-- C9 witness: the construction theorem at a PK-less schema and at a
one-PK schema. -/
theorem C9_creating_writer_w :
    (TableDataLocation.mk "t").NewCreatingWriter ⟨[]⟩ false
        = Except.error WriterError.errNoPK ∧
    (TableDataLocation.mk "t").NewCreatingWriter ⟨["id"]⟩ false
        = Except.ok
          { insertOnly := true, initialData := [], tableSch := ⟨["id"]⟩,
            statsCB := false, stats := ⟨0, 0, 0⟩, statOps := 0, gcOps := 0,
            editLog := [], statsCalls := [], gcRuns := 0 } :=
  ⟨(C9_creating_writer ⟨"t"⟩ ⟨[]⟩ false).1 rfl,
   (C9_creating_writer ⟨"t"⟩ ⟨["id"]⟩ false).2 (by simp)⟩

end DoltCore
